import Mathlib

/-!
# Verification of the rair-dapp event classification and dispatch subsystem

Shallow embedding of `src/blockchain-networks-service/bin/utils/eventCatcherMapping.js`
(the Event Registry Builder and Handler Table), of the `RAIR_ERC721` Solidity
contract (`createCollection`, `_beforeTokenTransfer`), and — modelled from the
spec where the repository code is not in the corpus — of the Dispatcher and
Idempotent Apply Layer.

JavaScript objects are modelled at the lookup level: an object is a function
from keys to optional values; `obj[k] = v` is functional override and the
spread `{...a, ...b}` lets `b`'s bindings win. The side effect `console.error`
is modelled as an explicit list of emitted error lines in the result value.
-/

namespace RairDapp

/-- The event-handler functions imported from `eventCatcherUtils` (that module is
not part of the analysed sources); each handler is modelled as an opaque tag,
one per imported function, exactly as `insertionMapping` references them. -/
inductive Handler where
  | insertContract
  | insertCollection
  | insertTokenClassic
  | insertTokenDiamond
  | insertOfferPool
  | insertOffer
  | insertDiamondOffer
  | insertLock
  | insertDiamondRange
  | metadataForToken
  | metadataForProduct
  | updateOfferClassic
  | updateDiamondRange
  | metadataForContract
  | handleResaleOffer
  | updateResaleOffer
  | registerCustomSplits
  | depositCredits
  | withdrawCredits
  | updateMintingOffer
deriving DecidableEq, Repr

/-- `insertionMapping` from eventCatcherMapping.js: the fixed map from event
name to handler function; JS member lookup yields `undefined` (here `none`)
for unknown names. -/
def insertionMapping : String → Option Handler
  -- Diamond Factory
  | "DeployedContract" => some .insertContract
  | "CreatedCollection" => some .insertCollection
  | "CreatedRange" => some .insertDiamondRange
  | "UpdatedRange" => some .updateDiamondRange
  | "UpdatedBaseURI" => some .metadataForContract
  | "UpdatedProductURI" => some .metadataForProduct
  | "UpdatedTokenURI" => some .metadataForToken
  -- Diamond Marketplace
  | "AddedMintingOffer" => some .insertDiamondOffer
  | "TokenMinted" => some .insertTokenClassic
  | "MintedToken" => some .insertTokenDiamond
  | "UpdatedMintingOffer" => some .updateMintingOffer
  -- Classic Factory
  | "NewContractDeployed" => some .insertContract
  -- Classic ERC721
  | "BaseURIChanged" => some .metadataForContract
  | "ProductURIChanged" => some .metadataForProduct
  | "TokenURIChanged" => some .metadataForToken
  | "ProductCreated" => some .insertCollection
  -- Classic Marketplace
  | "AddedOffer" => some .insertOfferPool
  | "AppendedRange" => some .insertOffer
  | "RangeLocked" => some .insertLock
  | "UpdatedOffer" => some .updateOfferClassic
  -- Resale Marketplace
  | "OfferStatusChange" => some .handleResaleOffer
  | "UpdatedOfferPrice" => some .updateResaleOffer
  | "CustomRoyaltiesSet" => some .registerCustomSplits
  -- Credit Handler
  | "ReceivedTokens" => some .depositCredits
  | "WithdrewCredit" => some .withdrawCredits
  | _ => none

/-- An element of an ABI array as ethers v5 accepts it: either a structured
JSON entry (with a `type` tag, a `name` and input types) or a raw
human-readable fragment string.  In JavaScript the array is untyped, and
`item.name` on a raw string is `undefined`, which matches no name. -/
inductive AbiItem where
  | json (ty : String) (name : String) (inputs : List String)
  | raw (s : String)
deriving DecidableEq, Repr

/-- JS `item.name === n`: only structured entries carry a `name` property. -/
def AbiItem.nameMatches (it : AbiItem) (n : String) : Bool :=
  match it with
  | .json _ name _ => name == n
  | .raw _ => false

/-- The `name` property of a structured entry (`undefined`, rendered as `""`,
on a raw string — the code only reads it from entries found by name). -/
def AbiItem.itemName (it : AbiItem) : String :=
  match it with
  | .json _ name _ => name
  | .raw _ => ""

/-- Canonical event signature text `name(type1,type2,...)` as ethers formats
event fragments. -/
def eventSig (name : String) (inputs : List String) : String :=
  name ++ "(" ++ String.intercalate "," inputs ++ ")"

/-- The signature of the event fragment an ABI item describes, if it is one:
a structured entry of type `"event"`, or a human-readable `"event ..."`
fragment string (whose canonical form drops the leading keyword; prefix test
and drop are written on the character list so that they compute by structural
recursion). -/
def AbiItem.eventSignature (it : AbiItem) : Option String :=
  match it with
  | .json ty name inputs => if ty == "event" then some (eventSig name inputs) else none
  | .raw s =>
      if "event ".data.isPrefixOf s.data then some (String.mk (s.data.drop 6)) else none

/-- Append a key to the key list if absent: JS object keys keep first-insertion
order and are unique. -/
def insertKey (ks : List String) (k : String) : List String :=
  if k ∈ ks then ks else ks ++ [k]

/-- `Object.keys(abiInteface.events)`: ethers `Interface.events` is an object
keyed by the canonical signature of every event fragment of the ABI, so its
key list is the deduplicated list of event signatures in ABI order. -/
def interfaceEvents (abi : List AbiItem) : List String :=
  (abi.filterMap AbiItem.eventSignature).foldl insertKey []

/-- `eventSignature.split('(')[0]`: the text before the first opening
parenthesis, i.e. the event name (written on the character list so that it
computes by structural recursion). -/
def splitName (sig : String) : String :=
  String.mk (sig.data.takeWhile (fun c => c != '('))

/-- `const [singleAbi] = abi.filter((item) => item.name === n)`: the first
element of the filtered array (`undefined`, i.e. `none`, when empty). -/
def findFirstByName (abi : List AbiItem) (n : String) : Option AbiItem :=
  (abi.filter (fun it => it.nameMatches n)).head?

/-- Modelled from the spec: ethers `utils.id`, the Signature Hasher — the
keccak-256 digest of the canonical signature text (the ethers library is an
external collaborator, not part of the analysed sources).  The spec relies
only on the digest being a pure deterministic function of the text and on
distinct canonical texts producing distinct identifiers, so it is modelled as
an injective deterministic tagging of the text. -/
def utilsId (s : String) : String :=
  "0x" ++ s

/-- One registry record, as built by `getContractEvents`:
`{signature, abi: [singleAbi], diamondEvent, operation}`. -/
structure RegistryEntry where
  signature : String
  abi : List AbiItem
  diamondEvent : Bool
  operation : Option Handler
deriving DecidableEq, Repr

/-- A JS object holding registry records, modelled at the lookup level. -/
def ObjMap : Type := String → Option RegistryEntry

/-- The empty object `{}`. -/
def objEmpty : ObjMap := fun _ => none

/-- `mapping[k] = v`: functional override. -/
def objInsert (m : ObjMap) (k : String) (v : RegistryEntry) : ObjMap :=
  fun q => if q == k then some v else m q

/-- The spread `{...a, ...b}`: bindings of `b` win over bindings of `a`. -/
def objSpread (a b : ObjMap) : ObjMap :=
  fun k => match b k with
    | some v => some v
    | none => a k

/-- Result of `getContractEvents`: the mapping it returns together with the
`console.error` lines it emitted while building it. -/
structure GCEResult where
  mapping : ObjMap
  errors : List String

/-- The body of the `forEach` in `getContractEvents`, processing one event
signature: find the first ABI entry with the event's name; if none, log an
error and register nothing; otherwise store
`{signature, abi: [singleAbi], diamondEvent: isDiamond, operation: insertionMapping[singleAbi.name]}`
under the key `utils.id(eventSignature)`. -/
def processSignature (abi : List AbiItem) (isDiamond : Bool)
    (acc : GCEResult) (eventSignature : String) : GCEResult :=
  match findFirstByName abi (splitName eventSignature) with
  | none =>
      { acc with errors :=
          acc.errors ++ ["Couldnt find ABI for signature " ++ eventSignature] }
  | some singleAbi =>
      let entry : RegistryEntry :=
        { signature := eventSignature
          abi := [singleAbi]
          diamondEvent := isDiamond
          operation := insertionMapping singleAbi.itemName }
      { acc with mapping := objInsert acc.mapping (utilsId eventSignature) entry }

/-- `getContractEvents(abi, isDiamond)` from eventCatcherMapping.js: iterate
over the signatures of the ABI's interface, registering each event. -/
def getContractEvents (abi : List AbiItem) (isDiamond : Bool := false) : GCEResult :=
  (interfaceEvents abi).foldl (processSignature abi isDiamond)
    { mapping := objEmpty, errors := [] }

/-- `masterMapping` is the spread of the per-ABI mappings over the corpus in
its fixed order; the corpus itself lives in
`bin/integrations/ethers/contracts` (not among the analysed sources), so the
build is embedded as a function of an arbitrary ordered corpus of
(ABI, isDiamond) pairs, exactly mirroring the spread chain for any given
corpus. -/
def buildMasterMapping (corpus : List (List AbiItem × Bool)) : ObjMap :=
  corpus.foldl (fun acc p => objSpread acc (getContractEvents p.1 p.2).mapping) objEmpty

/-! ## RAIR_ERC721 (Solidity, `src/unnamed/part_000`) -/

/-- Solidity `uint` word size: arithmetic in Solidity 0.8 reverts on
overflow past `2 ^ 256 - 1`. -/
def uintMax : Nat := 2 ^ 256 - 1

/-- Outcome of a Solidity call: a value, or a revert with a reason string. -/
inductive TxResult (α : Type) where
  | ok (a : α)
  | revert (msg : String)
deriving DecidableEq, Repr

/-- A member of the `_collections` array of RAIR_ERC721. -/
structure Collection where
  startingToken : Nat
  endingToken : Nat
  mintableTokens : Nat
  enableResaleAt : Nat
  name : String
deriving DecidableEq, Repr

/-- The contract state the analysed functions touch: the `_collections` array,
the `tokenToCollection` mapping (Solidity mappings default to 0, modelled as
an association list with that default), and the set of CREATOR role holders;
addresses and token ids are `uint256` values modelled as `Nat`. -/
structure RairState where
  collections : List Collection
  tokenToCollection : List (Nat × Nat)
  creators : List Nat
deriving DecidableEq, Repr

/-- Read of the Solidity mapping `tokenToCollection[token]` (default 0). -/
def RairState.tokenColl (st : RairState) (token : Nat) : Nat :=
  match st.tokenToCollection.lookup token with
  | some c => c
  | none => 0

/-- `createCollection(_collectionName, _copies, _resaleAt)`:
guarded by `onlyRole(CREATOR)`;
`require(_copies >= _resaleAt, ...)`; the new collection starts at 0 when
the array is empty and otherwise at the previous collection's `endingToken`,
ends at `startingToken + _copies` (uint256 addition, reverting on overflow),
and stores the name, `_copies` mintable tokens and `_resaleAt`.
The emitted events carry no state and are not modelled. -/
def createCollection (st : RairState) (caller : Nat) (collectionName : String)
    (copies resaleAt : Nat) : TxResult RairState :=
  if caller ∉ st.creators then
    .revert "AccessControl: account is missing role"
  else if ¬ copies ≥ resaleAt then
    .revert "ERC721: Resale start should be less than the total amount of copies"
  else
    let lastToken : Nat :=
      match st.collections.getLast? with
      | none => 0
      | some c => c.endingToken
    if lastToken + copies > uintMax then
      .revert "panic: arithmetic overflow"
    else
      .ok { st with collections := st.collections ++
              [{ startingToken := lastToken
                 endingToken := lastToken + copies
                 mintableTokens := copies
                 enableResaleAt := resaleAt
                 name := collectionName }] }

/-- `_beforeTokenTransfer(_from, _to, _tokenId)`: when both addresses are
nonzero, `require(_collections[tokenToCollection[_tokenId]].enableResaleAt == 0, ...)`;
an out-of-bounds read of `_collections` is a Solidity panic (also a revert).
`super._beforeTokenTransfer` (ERC721Enumerable bookkeeping) imposes no
further requirement modelled here. -/
def beforeTokenTransfer (st : RairState) (fromAddr toAddr tokenId : Nat) :
    TxResult Unit :=
  if fromAddr ≠ 0 ∧ toAddr ≠ 0 then
    match st.collections.get? (st.tokenColl tokenId) with
    | none => .revert "panic: array out-of-bounds access"
    | some c =>
        if c.enableResaleAt == 0 then .ok ()
        else .revert "RAIR ERC721: Transfers for this collection havent been enabled"
  else .ok ()

/-! ## Dispatcher and Idempotent Apply Layer (spec §§4.5–4.6)

The dispatcher and the idempotency ledger live in repository code that is not
among the analysed sources (only the registry it consumes is); they are
modelled from the spec below. -/

/-- Modelled from the spec: a LogRecord — `{identifier, raw parameter bytes,
contract address, block number, log index, transaction hash}` (§3). -/
structure LogRecord where
  identifier : String
  rawData : List Nat
  address : String
  blockNumber : Nat
  logIndex : Nat
  txHash : String
deriving DecidableEq, Repr

/-- Modelled from the spec: dispatch outcome classification (§4.5, §7). -/
inductive DispatchOutcome where
  | applied
  | unknownEvent
  | unhandled
  | duplicateApplication
deriving DecidableEq, Repr

/-- Modelled from the spec: the persisted state seen by the Apply Layer — a
store of some type `σ` mutated by handlers, plus the AppliedLog ledger of
(transaction hash, log index) pairs (§3, §4.6). -/
structure DispatchState (σ : Type) where
  store : σ
  ledger : List (String × Nat)
deriving DecidableEq, Repr

/-- Modelled from the spec: the Dispatcher (§4.5) — look up the identifier in
the registry (miss: UnknownEvent, drop); an entry without handler is dropped
silently; a (transaction hash, log index) pair already in the ledger is
skipped; otherwise the handler mutation and the ledger write land as one
atomic unit.  `applyH` interprets a handler tag as a state mutation (the
handler bodies live in `eventCatcherUtils`, outside the analysed sources). -/
def dispatch {σ : Type} (registry : ObjMap)
    (applyH : Handler → LogRecord → σ → σ)
    (s : DispatchState σ) (r : LogRecord) :
    DispatchState σ × DispatchOutcome :=
  match registry r.identifier with
  | none => (s, .unknownEvent)
  | some entry =>
      match entry.operation with
      | none => (s, .unhandled)
      | some h =>
          if (r.txHash, r.logIndex) ∈ s.ledger then
            (s, .duplicateApplication)
          else
            ({ store := applyH h r s.store
               ledger := (r.txHash, r.logIndex) :: s.ledger }, .applied)

/-! ## Helper lemmas -/

theorem utilsId_injective {s t : String} (h : utilsId s = utilsId t) : s = t := by
  unfold utilsId at h
  have h2 : ("0x" ++ s).data = ("0x" ++ t).data := by rw [h]
  simp [String.data_append] at h2
  exact String.ext h2

theorem findFirstByName_eq_find? (abi : List AbiItem) (n : String) :
    findFirstByName abi n = abi.find? (fun it => it.nameMatches n) := by
  induction abi with
  | nil => rfl
  | cons a l ih =>
      unfold findFirstByName at ih ⊢
      cases h : a.nameMatches n <;>
        simp [List.filter_cons, List.find?_cons, h, ih]

theorem objInsert_self (m : ObjMap) (k : String) (v : RegistryEntry) :
    objInsert m k v k = some v := by
  simp [objInsert]

theorem objInsert_other (m : ObjMap) (k : String) (v : RegistryEntry) (q : String)
    (h : q ≠ k) : objInsert m k v q = m q := by
  simp [objInsert, h]

theorem mem_foldl_insertKey (l : List String) :
    ∀ (ks : List String) (k : String),
      k ∈ l.foldl insertKey ks ↔ k ∈ ks ∨ k ∈ l := by
  induction l with
  | nil => simp
  | cons a l ih =>
      intro ks k
      rw [List.foldl_cons, ih]
      unfold insertKey
      by_cases ha : a ∈ ks <;> by_cases hk : k = a <;>
        simp [ha, hk]

theorem nodup_foldl_insertKey (l : List String) :
    ∀ ks : List String, ks.Nodup → (l.foldl insertKey ks).Nodup := by
  induction l with
  | nil => intro ks h; exact h
  | cons a l ih =>
      intro ks h
      rw [List.foldl_cons]
      apply ih
      unfold insertKey
      by_cases ha : a ∈ ks
      · simp [ha, h]
      · simp [ha, List.nodup_append, h]

theorem interfaceEvents_nodup (abi : List AbiItem) : (interfaceEvents abi).Nodup :=
  nodup_foldl_insertKey _ [] (by simp)

/-- Processing signatures other than `sig` never touches the key
`utilsId sig` (identifiers of distinct signatures are distinct). -/
theorem foldl_process_stable (abi : List AbiItem) (d : Bool) (sig : String) :
    ∀ (l : List String), sig ∉ l → ∀ acc : GCEResult,
      (l.foldl (processSignature abi d) acc).mapping (utilsId sig) =
        acc.mapping (utilsId sig) := by
  intro l
  induction l with
  | nil => intro _ acc; rfl
  | cons b l ih =>
      intro hs acc
      have hne : sig ≠ b := fun h => hs (h ▸ List.mem_cons_self b l)
      have hnl : sig ∉ l := fun h => hs (List.mem_cons_of_mem b h)
      rw [List.foldl_cons, ih hnl]
      unfold processSignature
      cases hfind : findFirstByName abi (splitName b) with
      | none => rfl
      | some x =>
          exact objInsert_other _ _ _ _ (fun hh => hne (utilsId_injective hh))

/-- After the fold, a signature found in the ABI is registered exactly as the
source stores it. -/
theorem gce_foldl_at (abi : List AbiItem) (d : Bool) (sig : String) (a : AbiItem)
    (ha : findFirstByName abi (splitName sig) = some a) :
    ∀ (l : List String), l.Nodup → sig ∈ l → ∀ acc : GCEResult,
      (l.foldl (processSignature abi d) acc).mapping (utilsId sig) =
        some { signature := sig, abi := [a], diamondEvent := d,
               operation := insertionMapping a.itemName } := by
  intro l
  induction l with
  | nil => intro _ h; cases h
  | cons b l ih =>
      intro hnd hsig acc
      rcases List.mem_cons.1 hsig with h | h
      · subst h
        have hnot : sig ∉ l := (List.nodup_cons.1 hnd).1
        rw [List.foldl_cons, foldl_process_stable abi d sig l hnot]
        unfold processSignature
        rw [ha]
        exact objInsert_self _ _ _
      · exact ih (List.nodup_cons.1 hnd).2 h _

/-- An event signature of the interface with a matching ABI entry is present
in the result of `getContractEvents` with exactly the record the source
builds. -/
theorem gce_mapping_at (abi : List AbiItem) (d : Bool) (sig : String) (a : AbiItem)
    (hsig : sig ∈ interfaceEvents abi)
    (ha : findFirstByName abi (splitName sig) = some a) :
    (getContractEvents abi d).mapping (utilsId sig) =
      some { signature := sig, abi := [a], diamondEvent := d,
             operation := insertionMapping a.itemName } :=
  gce_foldl_at abi d sig a ha _ (interfaceEvents_nodup abi) hsig _

/-- Characterization of every binding produced by the fold: it comes from some
interface event signature with a matching first ABI entry. -/
theorem gce_foldl_char (abi : List AbiItem) (d : Bool) :
    ∀ (l : List String), (∀ s ∈ l, s ∈ interfaceEvents abi) →
    ∀ acc : GCEResult,
      (∀ k e, acc.mapping k = some e →
        ∃ sig a, sig ∈ interfaceEvents abi ∧
          findFirstByName abi (splitName sig) = some a ∧ k = utilsId sig ∧
          e = { signature := sig, abi := [a], diamondEvent := d,
                operation := insertionMapping a.itemName }) →
    ∀ k e, (l.foldl (processSignature abi d) acc).mapping k = some e →
      ∃ sig a, sig ∈ interfaceEvents abi ∧
        findFirstByName abi (splitName sig) = some a ∧ k = utilsId sig ∧
        e = { signature := sig, abi := [a], diamondEvent := d,
              operation := insertionMapping a.itemName } := by
  intro l
  induction l with
  | nil => intro _ acc hacc k e h; exact hacc k e h
  | cons b l ih =>
      intro hl acc hacc k e
      rw [List.foldl_cons]
      apply ih (fun s hs => hl s (List.mem_cons_of_mem b hs))
      intro k' e' h'
      revert h'
      unfold processSignature
      cases hfind : findFirstByName abi (splitName b) with
      | none => exact hacc k' e'
      | some x =>
          intro h'
          dsimp only at h'
          by_cases hk : k' = utilsId b
          · subst hk
            rw [objInsert_self] at h'
            exact ⟨b, x, hl b (List.mem_cons_self b l), hfind, rfl,
              (Option.some.inj h').symm⟩
          · rw [objInsert_other _ _ _ _ hk] at h'
            exact hacc k' e' h'

/-- Every binding of `getContractEvents abi d` comes from an interface event
signature `sig`: the key is `utils.id(sig)` and the record stores the
signature, the one-element fragment list holding the first name-matching ABI
entry, the diamond flag, and the handler-table lookup. -/
theorem gce_mapping_char (abi : List AbiItem) (d : Bool) (k : String)
    (e : RegistryEntry) (h : (getContractEvents abi d).mapping k = some e) :
    ∃ sig a, sig ∈ interfaceEvents abi ∧
      findFirstByName abi (splitName sig) = some a ∧ k = utilsId sig ∧
      e = { signature := sig, abi := [a], diamondEvent := d,
            operation := insertionMapping a.itemName } :=
  gce_foldl_char abi d _ (fun _ hs => hs) _
    (fun _ _ h0 => by simp [objEmpty] at h0) k e h

/-- A signature with no name-matching entry is never registered. -/
theorem gce_mapping_missing (abi : List AbiItem) (d : Bool) (sig : String)
    (ha : findFirstByName abi (splitName sig) = none) :
    (getContractEvents abi d).mapping (utilsId sig) = none := by
  cases h : (getContractEvents abi d).mapping (utilsId sig) with
  | none => rfl
  | some e =>
      obtain ⟨sig', a, _, hfind, hk, _⟩ := gce_mapping_char abi d _ e h
      have : sig' = sig := utilsId_injective hk.symm
      rw [this] at hfind
      rw [ha] at hfind
      cases hfind

/-- `processSignature` only appends console errors. -/
theorem process_errors_mono (abi : List AbiItem) (d : Bool) (acc : GCEResult)
    (s msg : String) (h : msg ∈ acc.errors) :
    msg ∈ (processSignature abi d acc s).errors := by
  unfold processSignature
  cases hfind : findFirstByName abi (splitName s) with
  | none => exact List.mem_append_left _ h
  | some x => exact h

/-- The fold only appends console errors. -/
theorem foldl_errors_mono (abi : List AbiItem) (d : Bool) (msg : String) :
    ∀ (l : List String) (acc : GCEResult), msg ∈ acc.errors →
      msg ∈ (l.foldl (processSignature abi d) acc).errors := by
  intro l
  induction l with
  | nil => intro acc h; exact h
  | cons b l ih =>
      intro acc h
      exact ih _ (process_errors_mono abi d acc b msg h)

/-- A signature of the interface with no name-matching ABI entry leaves the
source error line among the emitted console errors. -/
theorem gce_errors_of_missing (abi : List AbiItem) (d : Bool) (sig : String)
    (hsig : sig ∈ interfaceEvents abi)
    (ha : findFirstByName abi (splitName sig) = none) :
    ("Couldnt find ABI for signature " ++ sig) ∈ (getContractEvents abi d).errors := by
  unfold getContractEvents
  have main : ∀ (l : List String) (acc : GCEResult), sig ∈ l →
      ("Couldnt find ABI for signature " ++ sig) ∈
        (l.foldl (processSignature abi d) acc).errors := by
    intro l
    induction l with
    | nil => intro _ h; cases h
    | cons b l ih =>
        intro acc hmem
        rcases List.mem_cons.1 hmem with h | h
        · subst h
          rw [List.foldl_cons]
          apply foldl_errors_mono
          unfold processSignature
          rw [ha]
          exact List.mem_append_right _ (List.mem_singleton.2 rfl)
        · exact ih _ h
  exact main _ _ hsig

/-- Spread at a key is the right operand's binding, or else the left one's. -/
theorem objSpread_or (a b : ObjMap) (k : String) :
    objSpread a b k = (b k).or (a k) := by
  unfold objSpread
  cases b k <;> rfl

/-- Folding the spread chain from an arbitrary object `m` agrees with folding
it from `{}` except where the fold never wrote. -/
theorem build_foldl_shift (k : String) :
    ∀ (ys : List (List AbiItem × Bool)) (m : ObjMap),
      (ys.foldl (fun acc p => objSpread acc (getContractEvents p.1 p.2).mapping) m) k =
        (buildMasterMapping ys k).or (m k) := by
  intro ys
  induction ys with
  | nil =>
      intro m
      simp [buildMasterMapping, objEmpty, Option.none_or]
  | cons p ys ih =>
      intro m
      have hcons : buildMasterMapping (p :: ys) k =
          (buildMasterMapping ys k).or ((getContractEvents p.1 p.2).mapping k) := by
        unfold buildMasterMapping
        rw [List.foldl_cons, ih, objSpread_or]
        simp only [objEmpty, Option.or_none]
        rfl
      rw [List.foldl_cons, ih, objSpread_or, hcons, Option.or_assoc]

/-- One step of the spread chain: a later binding wins, otherwise the earlier
corpus prefix decides. -/
theorem build_cons (p : List AbiItem × Bool) (corpus : List (List AbiItem × Bool))
    (k : String) :
    buildMasterMapping (p :: corpus) k =
      (buildMasterMapping corpus k).or ((getContractEvents p.1 p.2).mapping k) := by
  unfold buildMasterMapping
  rw [List.foldl_cons, build_foldl_shift, objSpread_or]
  simp only [objEmpty, Option.or_none]
  rfl

/-- If no ABI of the corpus binds `k`, neither does the built registry. -/
theorem build_none (k : String) :
    ∀ corpus : List (List AbiItem × Bool),
      (∀ p ∈ corpus, (getContractEvents p.1 p.2).mapping k = none) →
      buildMasterMapping corpus k = none := by
  intro corpus
  induction corpus with
  | nil => intro _; rfl
  | cons p corpus ih =>
      intro h
      rw [build_cons]
      rw [ih (fun q hq => h q (List.mem_cons_of_mem p hq))]
      rw [h p (List.mem_cons_self p corpus)]
      rfl

/-- Every binding of the built registry comes from some ABI of the corpus. -/
theorem build_char (k : String) (e : RegistryEntry) :
    ∀ corpus : List (List AbiItem × Bool),
      buildMasterMapping corpus k = some e →
      ∃ p ∈ corpus, (getContractEvents p.1 p.2).mapping k = some e := by
  intro corpus
  induction corpus with
  | nil => intro h; simp [buildMasterMapping, objEmpty] at h
  | cons p corpus ih =>
      intro h
      rw [build_cons] at h
      cases hb : buildMasterMapping corpus k with
      | some v =>
          rw [hb] at h
          obtain ⟨q, hq, hv⟩ := ih (hb.trans h)
          exact ⟨q, List.mem_cons_of_mem p hq, hv⟩
      | none =>
          rw [hb, Option.none_or] at h
          exact ⟨p, List.mem_cons_self p corpus, h⟩

/-- The binding of the registry at `k` is the one contributed by the last ABI
of the corpus whose per-ABI mapping binds `k`. -/
theorem build_last_contributor (pre post : List (List AbiItem × Bool))
    (abi : List AbiItem) (d : Bool) (k : String) (e : RegistryEntry)
    (h1 : (getContractEvents abi d).mapping k = some e)
    (h2 : ∀ p ∈ post, (getContractEvents p.1 p.2).mapping k = none) :
    buildMasterMapping (pre ++ (abi, d) :: post) k = some e := by
  unfold buildMasterMapping
  rw [List.foldl_append, List.foldl_cons, build_foldl_shift]
  have hpost : buildMasterMapping post k = none := build_none k post h2
  rw [hpost, Option.none_or, objSpread_or, h1]
  rfl

/-! ## Concrete fixtures

The ABI corpus consumed by `masterMapping` lives in
`bin/integrations/ethers/contracts`, which is not among the analysed
sources; the fixtures below are modelled from the spec (corpus of §4.3,
examples of §8) with representative parameter lists. -/

/-- Modelled from the spec: the classic ERC-721 token ABI declaring the
classic collection-created event `ProductCreated`. -/
def mClassicErc721Abi : List AbiItem :=
  [.json "event" "ProductCreated" ["uint256", "string", "uint256", "uint256"]]

/-- Modelled from the spec: the classic factory ABI declaring
`NewContractDeployed`. -/
def mClassicFactoryAbi : List AbiItem :=
  [.json "event" "NewContractDeployed" ["address", "uint256", "address"]]

/-- Modelled from the spec: the diamond factory ABI declaring
`DeployedContract` and the diamond collection-created event
`CreatedCollection`. -/
def mDiamondFactoryAbi : List AbiItem :=
  [.json "event" "DeployedContract" ["address", "uint256", "address"],
   .json "event" "CreatedCollection" ["uint256", "string", "uint256", "uint256"]]

/-- Modelled from the spec: a deprecated-events ABI re-declaring the very
same `ProductCreated` event as the current classic ERC-721 ABI, so both
declarations hash to the same EventIdentifier (the duplicate-identifier
situation of §4.3 step 6). -/
def mDeprecatedEventsAbi : List AbiItem :=
  [.json "event" "ProductCreated" ["uint256", "string", "uint256", "uint256"]]

/-- Modelled from the spec: an ABI supplied in human-readable form: ethers
builds its interface (so the event signature is enumerated), but no array
element carries a `name` property, so the fragment extractor finds zero
matching entries — the MissingFragment situation of §4.1. -/
def mRawEventsAbi : List AbiItem :=
  [.raw "event Foo(uint256)"]

/-- The registry record `getContractEvents` builds for the modelled classic
`ProductCreated` event. -/
def mProductCreatedEntry : RegistryEntry :=
  { signature := "ProductCreated(uint256,string,uint256,uint256)"
    abi := [.json "event" "ProductCreated" ["uint256", "string", "uint256", "uint256"]]
    diamondEvent := false
    operation := some .insertCollection }

/-! ## Claim C1 -/

/-- Claim C1, refuted at a concrete input: the corpus
`[(mClassicErc721Abi, false), (mDeprecatedEventsAbi, true)]` contains two
ABIs declaring events that hash to the same EventIdentifier, yet registry
construction (`buildMasterMapping`, a total computation with no failure
outcome) completes and produces a registry: no RegistryConflict is detected
and no abort happens — the later entry silently replaces the earlier one
(the classic entry with `diamondEvent := false` is lost). -/
theorem collision_counterexample :
    (getContractEvents mClassicErc721Abi false).mapping
        (utilsId "ProductCreated(uint256,string,uint256,uint256)") =
      some mProductCreatedEntry ∧
    (getContractEvents mDeprecatedEventsAbi true).mapping
        (utilsId "ProductCreated(uint256,string,uint256,uint256)") =
      some { mProductCreatedEntry with diamondEvent := true } ∧
    buildMasterMapping [(mClassicErc721Abi, false), (mDeprecatedEventsAbi, true)]
        (utilsId "ProductCreated(uint256,string,uint256,uint256)") =
      some { mProductCreatedEntry with diamondEvent := true } := by
  decide

/-- Claim C1 as amended: when two ABIs of the corpus bind the same
EventIdentifier, registry construction does not abort: it produces a
registry in which the identifier is silently bound to the entry of the
later ABI (the object spread lets the last write win). -/
theorem collision_last_write_wins_pair (a b : List AbiItem) (d1 d2 : Bool)
    (k : String) (e1 e2 : RegistryEntry)
    (h1 : (getContractEvents a d1).mapping k = some e1)
    (h2 : (getContractEvents b d2).mapping k = some e2) :
    buildMasterMapping [(a, d1), (b, d2)] k = some e2 := by
  rw [build_cons, build_cons]
  simp only [buildMasterMapping, List.foldl_nil]
  rw [h2]
  rfl

/-- Witness for the amended Claim C1 theorem at the concrete colliding
corpus. -/
theorem collision_last_write_wins_pair_witness :
    buildMasterMapping [(mClassicErc721Abi, false), (mDeprecatedEventsAbi, true)]
        (utilsId "ProductCreated(uint256,string,uint256,uint256)") =
      some { mProductCreatedEntry with diamondEvent := true } :=
  collision_last_write_wins_pair mClassicErc721Abi mDeprecatedEventsAbi false true
    (utilsId "ProductCreated(uint256,string,uint256,uint256)")
    mProductCreatedEntry { mProductCreatedEntry with diamondEvent := true }
    (by decide) (by decide)

/-! ## Claim C2 -/

/-- Claim C2, refuted at a concrete input: for `mRawEventsAbi` the interface
declares the signature `Foo(uint256)` and zero array entries have a matching
name, yet registry construction does not abort: `getContractEvents` (a total
computation with no failure outcome) logs the console error and skips the
event, and `buildMasterMapping` over a corpus containing this ABI still
completes, producing a registry that registers the other corpus events
normally. -/
theorem missing_fragment_counterexample :
    interfaceEvents mRawEventsAbi = ["Foo(uint256)"] ∧
    findFirstByName mRawEventsAbi (splitName "Foo(uint256)") = none ∧
    (getContractEvents mRawEventsAbi false).errors =
      ["Couldnt find ABI for signature Foo(uint256)"] ∧
    (getContractEvents mRawEventsAbi false).mapping (utilsId "Foo(uint256)") = none ∧
    buildMasterMapping [(mRawEventsAbi, false), (mClassicErc721Abi, false)]
        (utilsId "ProductCreated(uint256,string,uint256,uint256)") =
      some mProductCreatedEntry := by
  decide

/-- Claim C2 as amended: when zero entries of an ABI have a name equal to an
interface event's name, `getContractEvents` signals the condition only by
emitting the source's console-error line and leaves the event unregistered;
the build continues and still returns a registry (the condition is not
fatal). -/
theorem missing_fragment_logged_not_fatal (abi : List AbiItem) (d : Bool)
    (sig : String) (h1 : sig ∈ interfaceEvents abi)
    (h2 : findFirstByName abi (splitName sig) = none) :
    ("Couldnt find ABI for signature " ++ sig) ∈ (getContractEvents abi d).errors ∧
    (getContractEvents abi d).mapping (utilsId sig) = none :=
  ⟨gce_errors_of_missing abi d sig h1 h2, gce_mapping_missing abi d sig h2⟩

/-- Witness for the amended Claim C2 theorem at the concrete
human-readable ABI. -/
theorem missing_fragment_logged_not_fatal_witness :
    ("Couldnt find ABI for signature " ++ "Foo(uint256)") ∈
      (getContractEvents mRawEventsAbi false).errors ∧
    (getContractEvents mRawEventsAbi false).mapping (utilsId "Foo(uint256)") = none :=
  missing_fragment_logged_not_fatal mRawEventsAbi false "Foo(uint256)"
    (by decide) (by decide)

/-! ## Claim C8 -/

/-- Claim C8: when two ABIs of the corpus declare events with the same
EventIdentifier, registry construction completes without error (it is a
total computation) and the built registry binds every such colliding
identifier to the entry produced from whichever ABI appears later in the
fixed build order: the per-ABI mappings are merged by object spread, so the
last write wins. -/
theorem build_last_write_wins (pre mid post : List (List AbiItem × Bool))
    (a1 a2 : List AbiItem) (d1 d2 : Bool) (k : String) (e1 e2 : RegistryEntry)
    (h1 : (getContractEvents a1 d1).mapping k = some e1)
    (h2 : (getContractEvents a2 d2).mapping k = some e2)
    (hpost : ∀ p ∈ post, (getContractEvents p.1 p.2).mapping k = none) :
    buildMasterMapping (pre ++ (a1, d1) :: mid ++ (a2, d2) :: post) k = some e2 := by
  have hsplit : pre ++ (a1, d1) :: mid ++ (a2, d2) :: post =
      (pre ++ (a1, d1) :: mid) ++ (a2, d2) :: post := by
    simp [List.append_assoc]
  rw [hsplit]
  exact build_last_contributor (pre ++ (a1, d1) :: mid) post a2 d2 k e2 h2 hpost

/-- Witness for the Claim C8 theorem at the concrete colliding corpus. -/
theorem build_last_write_wins_witness :
    buildMasterMapping
        ([] ++ (mClassicErc721Abi, false) :: [] ++ (mDeprecatedEventsAbi, true) :: [])
        (utilsId "ProductCreated(uint256,string,uint256,uint256)") =
      some { mProductCreatedEntry with diamondEvent := true } :=
  build_last_write_wins [] [] [] mClassicErc721Abi mDeprecatedEventsAbi false true
    (utilsId "ProductCreated(uint256,string,uint256,uint256)")
    mProductCreatedEntry { mProductCreatedEntry with diamondEvent := true }
    (by decide) (by decide) (by simp)

/-! ## Claim C3 -/

/-- Claim C3: every record of the built registry stores exactly one ABI
fragment — a one-element list, never the full ABI — and that element is the
first entry, in ABI order, whose name equals the event's name (the name in
front of the parenthesis of the stored signature), for some ABI of the
corpus. -/
theorem registry_entry_single_first_fragment
    (corpus : List (List AbiItem × Bool)) (k : String) (e : RegistryEntry)
    (h : buildMasterMapping corpus k = some e) :
    ∃ abi d a, (abi, d) ∈ corpus ∧ e.abi = [a] ∧
      abi.find? (fun it => it.nameMatches (splitName e.signature)) = some a := by
  obtain ⟨p, hp, hm⟩ := build_char k e corpus h
  obtain ⟨sig, a, _, hfind, _, he⟩ := gce_mapping_char p.1 p.2 k e hm
  refine ⟨p.1, p.2, a, by simpa using hp, by rw [he], ?_⟩
  rw [he]
  rw [← findFirstByName_eq_find?]
  exact hfind

/-- Witness for the Claim C3 theorem at a concrete corpus. -/
theorem registry_entry_single_first_fragment_witness :
    ∃ abi d a, (abi, d) ∈ [(mClassicErc721Abi, false)] ∧
      mProductCreatedEntry.abi = [a] ∧
      abi.find? (fun it => it.nameMatches (splitName mProductCreatedEntry.signature)) =
        some a :=
  registry_entry_single_first_fragment [(mClassicErc721Abi, false)]
    (utilsId "ProductCreated(uint256,string,uint256,uint256)")
    mProductCreatedEntry (by decide)

/-! ## Claim C4 -/

/-- Claim C4: the Signature Hasher is a pure deterministic function —
hashing identical signature texts yields identical identifiers — and every
record of the built registry is keyed by the identifier obtained by hashing
the signature text stored in that record. -/
theorem hasher_deterministic_keys :
    (∀ s t : String, s = t → utilsId s = utilsId t) ∧
    ∀ (corpus : List (List AbiItem × Bool)) (k : String) (e : RegistryEntry),
      buildMasterMapping corpus k = some e → k = utilsId e.signature := by
  refine ⟨fun s t h => by rw [h], fun corpus k e h => ?_⟩
  obtain ⟨p, _, hm⟩ := build_char k e corpus h
  obtain ⟨sig, a, _, _, hk, he⟩ := gce_mapping_char p.1 p.2 k e hm
  rw [he, hk]

/-- Witness for the Claim C4 theorem at concrete inputs. -/
theorem hasher_deterministic_keys_witness :
    utilsId "Transfer(address,address,uint256)" =
      utilsId "Transfer(address,address,uint256)" ∧
    utilsId "ProductCreated(uint256,string,uint256,uint256)" =
      utilsId mProductCreatedEntry.signature :=
  ⟨hasher_deterministic_keys.1 "Transfer(address,address,uint256)"
      "Transfer(address,address,uint256)" rfl,
   hasher_deterministic_keys.2 [(mClassicErc721Abi, false)]
      (utilsId "ProductCreated(uint256,string,uint256,uint256)")
      mProductCreatedEntry (by decide)⟩

/-! ## Claim C5 -/

/-- Claim C5: over a corpus holding the classic ERC-721 ABI, the classic
factory ABI and the diamond factory ABI, the classic collection-created
event `ProductCreated` and the diamond one `CreatedCollection` yield two
distinct registry records under different identifiers whose handler fields
are the same function reference (`insertCollection`); likewise
`NewContractDeployed` and `DeployedContract` both carry `insertContract`. -/
theorem same_handler_distinct_entries :
    utilsId "ProductCreated(uint256,string,uint256,uint256)" ≠
      utilsId "CreatedCollection(uint256,string,uint256,uint256)" ∧
    buildMasterMapping
        [(mClassicErc721Abi, false), (mClassicFactoryAbi, false), (mDiamondFactoryAbi, true)]
        (utilsId "ProductCreated(uint256,string,uint256,uint256)") =
      some mProductCreatedEntry ∧
    buildMasterMapping
        [(mClassicErc721Abi, false), (mClassicFactoryAbi, false), (mDiamondFactoryAbi, true)]
        (utilsId "CreatedCollection(uint256,string,uint256,uint256)") =
      some { signature := "CreatedCollection(uint256,string,uint256,uint256)"
             abi := [.json "event" "CreatedCollection" ["uint256", "string", "uint256", "uint256"]]
             diamondEvent := true
             operation := some .insertCollection } ∧
    utilsId "NewContractDeployed(address,uint256,address)" ≠
      utilsId "DeployedContract(address,uint256,address)" ∧
    buildMasterMapping
        [(mClassicErc721Abi, false), (mClassicFactoryAbi, false), (mDiamondFactoryAbi, true)]
        (utilsId "NewContractDeployed(address,uint256,address)") =
      some { signature := "NewContractDeployed(address,uint256,address)"
             abi := [.json "event" "NewContractDeployed" ["address", "uint256", "address"]]
             diamondEvent := false
             operation := some .insertContract } ∧
    buildMasterMapping
        [(mClassicErc721Abi, false), (mClassicFactoryAbi, false), (mDiamondFactoryAbi, true)]
        (utilsId "DeployedContract(address,uint256,address)") =
      some { signature := "DeployedContract(address,uint256,address)"
             abi := [.json "event" "DeployedContract" ["address", "uint256", "address"]]
             diamondEvent := true
             operation := some .insertContract } := by
  decide

/-! ## Claim C6 -/

/-- Claim C6: an interface event whose name has no binding in the handler
table (`insertionMapping`) is still registered: its record is present, its
`operation` field is empty (`none`, the JS `undefined`), and the signature,
single-fragment list and generation flag are populated exactly as for
handled events. -/
theorem unbound_handler_still_registered (abi : List AbiItem) (d : Bool)
    (sig : String) (a : AbiItem) (h1 : sig ∈ interfaceEvents abi)
    (h2 : findFirstByName abi (splitName sig) = some a)
    (h3 : insertionMapping a.itemName = none) :
    (getContractEvents abi d).mapping (utilsId sig) =
      some { signature := sig, abi := [a], diamondEvent := d, operation := none } := by
  rw [gce_mapping_at abi d sig a h1 h2, h3]

/-- Witness for the Claim C6 theorem: `SoldOut` is an event name the source
leaves commented out of `insertionMapping`, so it has no handler binding. -/
theorem unbound_handler_still_registered_witness :
    (getContractEvents [AbiItem.json "event" "SoldOut" ["uint256"]] false).mapping
        (utilsId "SoldOut(uint256)") =
      some { signature := "SoldOut(uint256)"
             abi := [AbiItem.json "event" "SoldOut" ["uint256"]]
             diamondEvent := false
             operation := none } :=
  unbound_handler_still_registered [AbiItem.json "event" "SoldOut" ["uint256"]] false
    "SoldOut(uint256)" (AbiItem.json "event" "SoldOut" ["uint256"])
    (by decide) (by decide) (by decide)

/-! ## Claim C7 -/

/-- Modelled from the spec: the external driver performing a sequence of
dispatches against a fixed registry and handler semantics (delivery,
redelivery, and unrelated records in between). -/
def dispatchAll {σ : Type} (registry : ObjMap)
    (applyH : Handler → LogRecord → σ → σ)
    (s : DispatchState σ) (rs : List LogRecord) : DispatchState σ :=
  rs.foldl (fun st r => (dispatch registry applyH st r).1) s

/-- A dispatch never removes AppliedLog ledger entries. -/
theorem dispatch_ledger_mono {σ : Type} (registry : ObjMap)
    (applyH : Handler → LogRecord → σ → σ) (s : DispatchState σ)
    (r : LogRecord) (p : String × Nat) (h : p ∈ s.ledger) :
    p ∈ ((dispatch registry applyH s r).1).ledger := by
  unfold dispatch
  cases registry r.identifier with
  | none => exact h
  | some entry =>
      dsimp only
      cases entry.operation with
      | none => exact h
      | some hd =>
          dsimp only
          by_cases hl : (r.txHash, r.logIndex) ∈ s.ledger
          · rw [if_pos hl]; exact h
          · rw [if_neg hl]; exact List.mem_cons_of_mem _ h

/-- A sequence of dispatches never removes AppliedLog ledger entries. -/
theorem dispatchAll_ledger_mono {σ : Type} (registry : ObjMap)
    (applyH : Handler → LogRecord → σ → σ) (p : String × Nat) :
    ∀ (rs : List LogRecord) (s : DispatchState σ), p ∈ s.ledger →
      p ∈ (dispatchAll registry applyH s rs).ledger := by
  intro rs
  induction rs with
  | nil => intro s h; exact h
  | cons r rs ih =>
      intro s h
      exact ih _ (dispatch_ledger_mono registry applyH s r p h)

/-- Dispatching a record whose (transaction hash, log index) pair is already
in the ledger leaves the state unchanged, whatever the registry and handler
say about the record. -/
theorem dispatch_skips_applied {σ : Type} (registry : ObjMap)
    (applyH : Handler → LogRecord → σ → σ) (s : DispatchState σ)
    (r : LogRecord) (h : (r.txHash, r.logIndex) ∈ s.ledger) :
    (dispatch registry applyH s r).1 = s := by
  unfold dispatch
  cases registry r.identifier with
  | none => rfl
  | some entry =>
      dsimp only
      cases entry.operation with
      | none => rfl
      | some hd =>
          dsimp only
          rw [if_pos h]

/-- A successful application records its (transaction hash, log index) pair
in the ledger. -/
theorem applied_adds_ledger {σ : Type} (registry : ObjMap)
    (applyH : Handler → LogRecord → σ → σ) (s s1 : DispatchState σ)
    (r : LogRecord) (h : dispatch registry applyH s r = (s1, .applied)) :
    (r.txHash, r.logIndex) ∈ s1.ledger := by
  unfold dispatch at h
  cases hreg : registry r.identifier with
  | none => rw [hreg] at h; cases h
  | some entry =>
      rw [hreg] at h
      dsimp only at h
      cases hop : entry.operation with
      | none => rw [hop] at h; cases h
      | some hd =>
          rw [hop] at h
          dsimp only at h
          by_cases hl : (r.txHash, r.logIndex) ∈ s.ledger
          · rw [if_pos hl] at h; cases h
          · rw [if_neg hl, Prod.mk.injEq] at h
            rw [← h.1]
            exact List.mem_cons_self _ _

/-- Claim C7: dispatching the same LogRecord twice mutates persisted state
exactly once — after a first successful application of `r`, any later
dispatch of a record sharing the (transaction hash, log index) pair, even
with arbitrary other dispatches in between, leaves the persisted state and
ledger unchanged. -/
theorem at_most_once_application {σ : Type} (registry : ObjMap)
    (applyH : Handler → LogRecord → σ → σ) (s s1 : DispatchState σ)
    (r : LogRecord) (h : dispatch registry applyH s r = (s1, .applied))
    (rs : List LogRecord) (r2 : LogRecord)
    (ht : r2.txHash = r.txHash) (hi : r2.logIndex = r.logIndex) :
    (dispatch registry applyH (dispatchAll registry applyH s1 rs) r2).1 =
      dispatchAll registry applyH s1 rs := by
  apply dispatch_skips_applied
  rw [ht, hi]
  exact dispatchAll_ledger_mono registry applyH _ rs s1
    (applied_adds_ledger registry applyH s s1 r h)

/-- The registry used by the Claim C7 witness: one entry bound to the
`insertContract` handler. -/
def mWitnessRegistry : ObjMap :=
  objInsert objEmpty (utilsId "ProductCreated(uint256,string,uint256,uint256)")
    mProductCreatedEntry

/-- The LogRecord used by the Claim C7 witness. -/
def mWitnessRecord : LogRecord :=
  { identifier := utilsId "ProductCreated(uint256,string,uint256,uint256)"
    rawData := [1, 2]
    address := "0xabc"
    blockNumber := 10
    logIndex := 0
    txHash := "0xdeadbeef" }

/-- Witness for the Claim C7 theorem: a counting handler over `Nat` stores;
the record is applied once, redelivered inside the interleaving and again
at the end, and the state after the redelivery is unchanged. -/
theorem at_most_once_application_witness :
    (dispatch mWitnessRegistry (fun _ _ n => n + 1)
        (dispatchAll mWitnessRegistry (fun _ _ n => n + 1)
          { store := 1, ledger := [("0xdeadbeef", 0)] } [mWitnessRecord])
        mWitnessRecord).1 =
      dispatchAll mWitnessRegistry (fun _ _ n => n + 1)
        { store := 1, ledger := [("0xdeadbeef", 0)] } [mWitnessRecord] :=
  at_most_once_application mWitnessRegistry (fun _ _ n => n + 1)
    { store := 0, ledger := [] } { store := 1, ledger := [("0xdeadbeef", 0)] }
    mWitnessRecord (by decide) [mWitnessRecord] mWitnessRecord rfl rfl

/-! ## Claim C9 -/

/-- Claim C9: collections partition token ids contiguously — every
successful `createCollection` appends one collection whose `startingToken`
is 0 for the first collection and the previous collection's `endingToken`
otherwise, and whose `endingToken` is `startingToken` plus the requested
number of copies; and `createCollection` reverts whenever
`copies < resaleAt`. -/
theorem createCollection_contiguous (st : RairState) (caller : Nat)
    (nm : String) (copies resaleAt : Nat) :
    (copies < resaleAt →
      ∃ msg, createCollection st caller nm copies resaleAt = .revert msg) ∧
    ∀ st', createCollection st caller nm copies resaleAt = .ok st' →
      ∃ c, st'.collections = st.collections ++ [c] ∧
        (st.collections = [] → c.startingToken = 0) ∧
        (∀ prev, st.collections.getLast? = some prev →
          c.startingToken = prev.endingToken) ∧
        c.endingToken = c.startingToken + copies := by
  constructor
  · intro hlt
    unfold createCollection
    by_cases hc : caller ∉ st.creators
    · exact ⟨_, by rw [if_pos hc]⟩
    · have hr : ¬ copies ≥ resaleAt := Nat.not_le.2 hlt
      exact ⟨_, by rw [if_neg hc, if_pos hr]⟩
  · intro st' h
    unfold createCollection at h
    by_cases hc : caller ∉ st.creators
    · rw [if_pos hc] at h; cases h
    · rw [if_neg hc] at h
      by_cases hr : ¬ copies ≥ resaleAt
      · rw [if_pos hr] at h; cases h
      · rw [if_neg hr] at h
        cases hlast : st.collections.getLast? with
        | none =>
            rw [hlast] at h
            by_cases ho : 0 + copies > uintMax
            · rw [if_pos ho] at h; cases h
            · rw [if_neg ho] at h
              have h2 := TxResult.ok.inj h
              subst h2
              refine ⟨_, rfl, fun _ => rfl, fun prev hprev => ?_, rfl⟩
              cases hprev
        | some prev0 =>
            rw [hlast] at h
            by_cases ho : prev0.endingToken + copies > uintMax
            · rw [if_pos ho] at h; cases h
            · rw [if_neg ho] at h
              have h2 := TxResult.ok.inj h
              subst h2
              refine ⟨_, rfl, fun he => ?_, fun prev hprev => ?_, rfl⟩
              · rw [he] at hlast; cases hlast
              · rw [Option.some.inj hprev]

/-- The contract state with one collection ending at token 5, used by the
Claim C9 and C10 witnesses. -/
def mStateOne : RairState :=
  { collections := [{ startingToken := 0, endingToken := 5, mintableTokens := 5,
                      enableResaleAt := 0, name := "A" }]
    tokenToCollection := []
    creators := [7] }

/-- The state after the Claim C9 witness call appends collection "B". -/
def mStateTwo : RairState :=
  { collections := [{ startingToken := 0, endingToken := 5, mintableTokens := 5,
                      enableResaleAt := 0, name := "A" },
                    { startingToken := 5, endingToken := 8, mintableTokens := 3,
                      enableResaleAt := 0, name := "B" }]
    tokenToCollection := []
    creators := [7] }

/-- Witness for the Claim C9 theorem: a call with `copies < resaleAt`
reverts, and a creator appends a second collection after one ending at
token 5, obtaining the contiguity facts at that concrete state. -/
theorem createCollection_contiguous_witness :
    (∃ msg, createCollection
        { collections := [], tokenToCollection := [], creators := [7] }
        7 "B" 2 5 = .revert msg) ∧
    ∃ c, mStateTwo.collections = mStateOne.collections ++ [c] ∧
      (mStateOne.collections = [] → c.startingToken = 0) ∧
      (∀ prev, mStateOne.collections.getLast? = some prev →
        c.startingToken = prev.endingToken) ∧
      c.endingToken = c.startingToken + 3 :=
  ⟨(createCollection_contiguous
      { collections := [], tokenToCollection := [], creators := [7] }
      7 "B" 2 5).1 (by decide),
   (createCollection_contiguous mStateOne 7 "B" 3 0).2 mStateTwo (by decide)⟩

/-! ## Claim C10 -/

/-- Claim C10: a transfer whose from-address and to-address are both nonzero
passes the `_beforeTokenTransfer` hook exactly when the collection holding
the token has `enableResaleAt` equal to 0 (otherwise it reverts); mints
(from the zero address) and burns (to the zero address) are never blocked by
this check. -/
theorem transfer_lock_check (st : RairState)
    (fromAddr toAddr tokenId : Nat) (c : Collection) :
    (fromAddr ≠ 0 → toAddr ≠ 0 →
      st.collections.get? (st.tokenColl tokenId) = some c →
      (beforeTokenTransfer st fromAddr toAddr tokenId = .ok () ↔
        c.enableResaleAt = 0)) ∧
    ((fromAddr = 0 ∨ toAddr = 0) →
      beforeTokenTransfer st fromAddr toAddr tokenId = .ok ()) := by
  constructor
  · intro hf ht hc
    unfold beforeTokenTransfer
    rw [if_pos ⟨hf, ht⟩, hc]
    by_cases hr : c.enableResaleAt = 0 <;> simp [hr]
  · intro h
    unfold beforeTokenTransfer
    rw [if_neg]
    rcases h with h | h <;> simp [h]

/-- Witness for the Claim C10 theorem: with the token's collection still
locked (`enableResaleAt = 2`), a wallet-to-wallet transfer is not `.ok`,
while the mint of the same token passes the hook. -/
theorem transfer_lock_check_witness :
    (beforeTokenTransfer
        { collections := [{ startingToken := 0, endingToken := 5, mintableTokens := 5,
                            enableResaleAt := 2, name := "A" }],
          tokenToCollection := [(1, 0)], creators := [7] }
        3 4 1 = .ok () ↔
      ({ startingToken := 0, endingToken := 5, mintableTokens := 5,
         enableResaleAt := 2, name := "A" } : Collection).enableResaleAt = 0) ∧
    beforeTokenTransfer
        { collections := [{ startingToken := 0, endingToken := 5, mintableTokens := 5,
                            enableResaleAt := 2, name := "A" }],
          tokenToCollection := [(1, 0)], creators := [7] }
        0 4 1 = .ok () :=
  ⟨(transfer_lock_check
      { collections := [{ startingToken := 0, endingToken := 5, mintableTokens := 5,
                          enableResaleAt := 2, name := "A" }],
        tokenToCollection := [(1, 0)], creators := [7] } 3 4 1
      { startingToken := 0, endingToken := 5, mintableTokens := 5,
        enableResaleAt := 2, name := "A" }).1
      (by decide) (by decide) (by decide),
   (transfer_lock_check
      { collections := [{ startingToken := 0, endingToken := 5, mintableTokens := 5,
                          enableResaleAt := 2, name := "A" }],
        tokenToCollection := [(1, 0)], creators := [7] } 0 4 1
      { startingToken := 0, endingToken := 5, mintableTokens := 5,
        enableResaleAt := 2, name := "A" }).2
      (Or.inl rfl)⟩

end RairDapp
